import Mathlib

/-!
Shallow embedding of the `retryyy` retry library (src/core.ts and
src/policies/*) and proofs about its policy protocol, policy units and
execution engine.

Modelling conventions:
* JavaScript numbers are modelled as `ℚ` (delays, timestamps, options);
  attempt counters are `Nat`.
* A thrown JS value is modelled by `Except.error`; normal return by
  `Except.ok`.  JS `null` is the distinguished error value `Err.null`.
* `Math.random()` draws are passed in explicitly as a `ℚ` argument.
* The transcendental curve used by `PollyJitter`
  (`Math.pow(2, t) * Math.tanh(Math.sqrt(4 * t))`, computed over floats)
  is passed in as an explicit function argument `curve : ℚ → ℚ`; the
  claims verified here do not depend on its values.
* Real time is modelled by an explicit clock `clock : Nat → ℚ`:
  `clock 0` is `Date.now()` at state initialisation and `clock k` is
  `Date.now()` observed when the k-th failure is processed.
-/

namespace Retryyy

/-- Error values that can be thrown.  `null` models the JS `null` the
engine stores in `state.error` before any failure; `str` models an
ordinary `Error` with a message; `typeError` models a `TypeError`;
`retryyy` models `RetryyyError` (an `AggregateError` carrying the list
of wrapped errors and a `cause`). -/
inductive Err where
  | null : Err
  | str : String → Err
  | typeError : String → Err
  | retryyy : List Err → Err → Err

/-- The mutable `RetryState` record of src/core.ts, one per operation. -/
structure RetryState where
  attempt : Nat
  delay : ℚ
  elapsed : ℚ
  error : Err
  errors : List Err
  start : ℚ

/-- A fully composed policy, as the engine invokes it: `policy(state)`,
with no `next` argument.  (In JS every `RetryPolicy` can be called this
way; the engine and `join` always call policies with a single
argument, so the callee sees `next === undefined`.) -/
abbrev NextFn := RetryState → Except Err ℚ

/-- A `RetryPolicy` from src/core.ts: `(state, next?) => number`,
which may throw (`Except.error`). -/
abbrev RetryPolicy := RetryState → Option NextFn → Except Err ℚ

/-- Calling a `RetryPolicy` value with a single argument, as happens
when it is passed as `next` and invoked as `next(state)`:
the callee receives `next === undefined`. -/
def asNext (p : RetryPolicy) : NextFn := fun s => p s none

/-- An entry of a `PolicyList`: either a single policy or a nested
array of policies (`RetryPolicy | RetryPolicy[]`). -/
inductive PolicyItem where
  | single : RetryPolicy → PolicyItem
  | group : List RetryPolicy → PolicyItem

/-- `policies.flat()`: one level of flattening, which on `PolicyList`
inputs (at most one level of nesting) is a full depth-first flatten. -/
def PolicyItem.flatten : List PolicyItem → List RetryPolicy
  | [] => []
  | .single p :: rest => p :: PolicyItem.flatten rest
  | .group ps :: rest => ps ++ PolicyItem.flatten rest

/-- `reduceRight((next, policy) => (state) => policy(state, next))` on a
non-empty list, written head-first: the accumulator starts at the last
element and each earlier policy wraps it.  The produced arrow takes only
`state`, so the composed policy ignores any `next` it is itself given,
and the captured `next` is invoked as `next(state)` (no second
argument), hence `asNext`. -/
def reduceRight : RetryPolicy → List RetryPolicy → RetryPolicy
  | p, [] => p
  | p, q :: rest => fun s _ => p s (some (asNext (reduceRight q rest)))

/-- `join(...policies)` from src/core.ts:
`policies.flat().reduceRight((next, policy) => (state) => policy(state, next))`.
`Array.prototype.reduceRight` with no initial value throws a `TypeError`
on an empty array and returns the sole element unchanged on a singleton. -/
def join (items : List PolicyItem) : Except Err RetryPolicy :=
  match PolicyItem.flatten items with
  | [] => .error (.typeError "Reduce of empty array with no initial value")
  | p :: rest => .ok (reduceRight p rest)

/-! ## Policy units -/

/-- Options of `Breaker` (src/policies/Breaker.ts). -/
structure BreakerOptions where
  max : Option ℚ := none

/-- `Breaker(options)` : stop retrying after `max` attempts
(`options?.max ?? 10`).  With no `next` it also throws (fail closed). -/
def Breaker (options : Option BreakerOptions) : RetryPolicy :=
  let max := (options.bind (·.max)).getD 10
  fun state next =>
    if max ≤ (state.attempt : ℚ) then .error state.error
    else
      match next with
      | some n => n state
      | none => .error state.error

/-- Options of `Timeout` (src/policies/Timeout.ts). -/
structure TimeoutOptions where
  after : Option ℚ := none

/-- `Timeout(options)` : give up once
`state.elapsed > after - state.delay` or when there is no `next`
(`options?.after ?? 30_000`). -/
def Timeout (options : Option TimeoutOptions) : RetryPolicy :=
  let after := (options.bind (·.after)).getD 30000
  fun state next =>
    match next with
    | none => .error state.error
    | some n =>
      if after - state.delay < state.elapsed then .error state.error
      else n state

/-- Options of `Backoff` (src/policies/Backoff.ts). -/
structure BackoffOptions where
  delay : Option ℚ := none
  exp : Option ℚ := none
  max : Option ℚ := none

/-- `Backoff(options)` : construction-time validation then
`void next?.(state); return Math.min(max, delay * Math.pow(exp, state.attempt - 1))`.
The construction-time `throw new TypeError(...)` is the `Except.error`
of the outer `Except`.  `void next?.(state)` evaluates `next` when
present, discarding its value but propagating a throw. -/
def Backoff (options : Option BackoffOptions) : Except Err RetryPolicy :=
  let delay := (options.bind (·.delay)).getD 150
  let exp := (options.bind (·.exp)).getD 2
  let max := (options.bind (·.max)).getD 30000
  if delay ≤ 0 then .error (.typeError "delay must be a positive number")
  else if exp ≤ 0 then .error (.typeError "exp must be a positive number")
  else
    .ok fun state next =>
      let value := min max (delay * exp ^ ((state.attempt : ℤ) - 1))
      match next with
      | some n => (n state).map fun _ => value
      | none => .ok value

/-- Options of `Jitter` (src/policies/Jitter.ts).  Note the options
argument of `Jitter` itself is not optional in the source. -/
structure JitterOptions where
  offset : Option ℚ := none
  range : Option ℚ := none

/-- `Jitter(options)` : requires `next` (throws `state.error` if
missing), then returns `delay + delay*range*random() + delay*offset`
where `delay = next(state)`.  `rand` is the `Math.random()` draw. -/
def Jitter (options : JitterOptions) (rand : ℚ) : RetryPolicy :=
  let range := options.range.getD (-(1/2))
  let offset := options.offset.getD (1/4)
  fun state next =>
    match next with
    | none => .error state.error
    | some n =>
      (n state).map fun delay => delay + delay * range * rand + delay * offset

/-- `FullJitter()` = `Jitter({ offset: -1, range: 1 })`. -/
def FullJitter (rand : ℚ) : RetryPolicy :=
  Jitter { offset := some (-1), range := some 1 } rand

/-- `EqualJitter()` = `Jitter({ offset: -0.5, range: 0.5 })`. -/
def EqualJitter (rand : ℚ) : RetryPolicy :=
  Jitter { offset := some (-(1/2)), range := some (1/2) } rand

/-- Options of `DecorrelatedJitter` (src/policies/Jitter.ts). -/
structure DecorrelatedJitterOptions where
  initial : Option ℚ := none
  max : Option ℚ := none

/-- `DecorrelatedJitter(options)` : `void next?.(state)` (value
discarded, throw propagated), then
`past = attempt === 1 ? initial : state.delay`,
`top = Math.min(max, past * 3)`, return
`Math.random() * (top - initial) + initial`. -/
def DecorrelatedJitter (options : Option DecorrelatedJitterOptions) (rand : ℚ) :
    RetryPolicy :=
  let initial := (options.bind (·.initial)).getD 150
  let max := (options.bind (·.max)).getD 30000
  fun state next =>
    let past := if state.attempt = 1 then initial else state.delay
    let top := min max (past * 3)
    let value := rand * (top - initial) + initial
    match next with
    | some n => (n state).map fun _ => value
    | none => .ok value

/-- Options of `PollyJitter` (src/policies/Jitter.ts). -/
structure PollyJitterOptions where
  initial : Option ℚ := none
  max : Option ℚ := none

def POLLY_P_FACTOR : ℚ := 4

def POLLY_RP_SCALING_FACTOR : ℚ := 1 / (14/10)

/-- One invocation of the policy returned by `PollyJitter(options)`.
`void middleware?.(state)` (value discarded, throw propagated), then
`t = attempt - 1 + random()`, `prev = factors.get(state) ?? 0`,
`next = Math.pow(2, t) * Math.tanh(Math.sqrt(4 * t))`,
`factors.set(state, next)`, return
`Math.min(max, (next - prev) * (1/1.4) * initial)`.

The float transcendental `Math.pow(2, t) * Math.tanh(Math.sqrt(POLLY_P_FACTOR * t))`
is abstracted as `curve t`; `prev` is the `WeakMap` entry for this
state (`0` for a state never seen before) and the second component of
the result is the updated entry. -/
def PollyJitter (options : Option PollyJitterOptions) (curve : ℚ → ℚ)
    (prev rand : ℚ) : RetryState → Option NextFn → Except Err ℚ × ℚ :=
  let initial := (options.bind (·.initial)).getD 150
  let max := (options.bind (·.max)).getD 30000
  fun state middleware =>
    let t := (state.attempt : ℚ) - 1 + rand
    let curr := curve t
    let shift := curr - prev
    let value := min max (shift * POLLY_RP_SCALING_FACTOR * initial)
    match middleware with
    | some n =>
      match n state with
      | .error e => (.error e, prev)
      | .ok _ => (.ok value, curr)
    | none => (.ok value, curr)

/-- `RetryyyError` construction (src/policies/BrandError.ts):
`new RetryyyError(errors, { cause })` is an `AggregateError` whose
`errors` list is the passed list and whose `cause` is as given. -/
def RetryyyError (errors : List Err) (cause : Err) : Err :=
  .retryyy errors cause

/-- `BrandError()` : `try { if (next) return next(state); throw state.error }
catch (err) { throw new RetryyyError(state.errors.concat(err), { cause: err }) }`. -/
def BrandError : RetryPolicy := fun state next =>
  match next with
  | some n =>
    match n state with
    | .ok v => .ok v
    | .error err => .error (RetryyyError (state.errors ++ [err]) err)
  | none => .error (RetryyyError (state.errors ++ [state.error]) state.error)

/-- `FastTrack()` (src/policies/FastTrack.ts):
`const delay = next?.(state) ?? 0; return state.attempt === 1 ? 0 : delay`. -/
def FastTrack : RetryPolicy := fun state next =>
  let delayRes :=
    match next with
    | some n => n state
    | none => Except.ok 0
  delayRes.map fun delay => if state.attempt = 1 then 0 else delay

/-! ## Execution engine (src/core.ts) -/

/-- The cancellation signal, reduced to what the embedded engine can
observe: whether it is aborted at the moments the engine checks, and
its abort `reason`.  An abort arriving in the middle of a pending wait
is a real-time event outside this model; `aborted` models a signal
whose state is fixed for the duration of the run (in particular a
signal already aborted before the wrapped call). -/
structure Signal where
  aborted : Bool
  reason : Err

/-- `wait(ms, signal)` from src/core.ts, restricted to the outcomes
visible in the model: it rejects with `signal.reason` when the signal
is aborted and otherwise resolves after the timeout. -/
def wait (signal : Option Signal) : Except Err Unit :=
  match signal with
  | some sig => if sig.aborted then .error sig.reason else .ok ()
  | none => .ok ()

/-- The fresh `RetryState` created at the top of `exec`:
`{ attempt: 0, delay: 0, elapsed: 0, error: null, errors: [], start: Date.now() }`. -/
def initState (start : ℚ) : RetryState :=
  { attempt := 0, delay := 0, elapsed := 0, error := .null, errors := [], start := start }

/-- The result of running the engine: the terminal outcome (`none`
when the fuel ran out with the loop still going), the number of times
the wrapped operation was invoked, and the snapshots of the state
after each processed failure (with the committed `delay` whenever the
policy returned one). -/
abbrev ExecResult (α : Type) := Option (Except Err α) × Nat × List RetryState

/-- The `for (;;)` loop of `exec` in src/core.ts.  `op k` is the
outcome of the k-th invocation (1-based) of the wrapped function,
`policy` is the composed policy invoked as `policy(state)`, and
`clock k` is `Date.now()` when the k-th failure is processed.  On each
failure the engine increments `attempt`, recomputes `elapsed`, records
the error, invokes the policy (a throw terminates the loop), commits
the returned delay, and waits (a wait rejected by the aborted signal
terminates the loop with the cancellation reason). -/
def execLoop {α : Type} (op : Nat → Except Err α) (policy : NextFn)
    (signal : Option Signal) (clock : Nat → ℚ) :
    Nat → RetryState → Nat → ExecResult α
  | 0, _, calls => (none, calls, [])
  | fuel + 1, state, calls =>
    match op (calls + 1) with
    | .ok v => (some (.ok v), calls + 1, [])
    | .error e =>
      let s1 : RetryState :=
        { state with
          attempt := state.attempt + 1
          elapsed := clock (state.attempt + 1) - state.start
          error := e
          errors := state.errors ++ [e] }
      match policy s1 with
      | .error pe => (some (.error pe), calls + 1, [s1])
      | .ok d =>
        let s2 : RetryState := { s1 with delay := d }
        match wait signal with
        | .error ce => (some (.error ce), calls + 1, [s2])
        | .ok _ =>
          let rest := execLoop op policy signal clock fuel s2 (calls + 1)
          (rest.1, rest.2.1, s2 :: rest.2.2)

/-- `exec` from src/core.ts: create a fresh state
(`start = Date.now() = clock 0`) and run the retry loop. -/
def exec {α : Type} (op : Nat → Except Err α) (policy : NextFn)
    (signal : Option Signal) (clock : Nat → ℚ) (fuel : Nat) : ExecResult α :=
  execLoop op policy signal clock fuel (initState (clock 0)) 0

/-! ## Concrete fixtures used by counterexamples and witnesses -/

/-- A sample state at a given attempt number (fresh otherwise). -/
def stateAt (n : Nat) : RetryState :=
  { attempt := n, delay := 0, elapsed := 0, error := .null, errors := [], start := 0 }

/-- An operation that fails on every invocation. -/
def failOp : Nat → Except Err Unit := fun _ => .error (.str "failure")

/-- A composed policy that always schedules an immediate retry. -/
def const0 : NextFn := fun _ => .ok 0

/-- A policy unit that always returns delay 5. -/
def constFive : RetryPolicy := fun _ _ => .ok 5

/-- A composed policy whose delays decrease after the first attempt. -/
def zigzag : NextFn := fun s => .ok (if s.attempt = 1 then 100 else 5)

/-- A composed policy that always returns delay 42. -/
def ok42 : NextFn := fun _ => .ok 42

/-- A composed policy that always throws. -/
def boomNext : NextFn := fun _ => .error (.str "boom")

/-- The state of the repository's own BrandError test: two failures
recorded, `error` = the last one. -/
def brandState : RetryState :=
  { stateAt 2 with
    error := .str "Last error"
    errors := [.str "Previous error", .str "Last error"] }

/-! ## C4: `join` composition semantics -/

theorem PolicyItem.flatten_map_single (l : List RetryPolicy) :
    PolicyItem.flatten (l.map .single) = l := by
  induction l with
  | nil => rfl
  | cons p rest ih => simp [PolicyItem.flatten, ih]

/-- C4 counterexample: contrary to "join raises a configuration error
when given fewer than 2 effective units", `join` applied to a single
effective unit raises nothing: it returns that unit unchanged
(`Array.prototype.reduceRight` on a singleton), here producing delay 5. -/
theorem join_singleton_not_error :
    (join [.single constFive]).map (fun p => p (stateAt 1) none) = .ok (.ok 5) := rfl

/-- C4 (amended): `join(A, B)` invoked on `s` equals `A(s, B)` (where
`B` passed as `next` is invoked with a single argument); nested
sequence arguments are flattened (depth-first, one level as in
`Array.prototype.flat()`) before composition; and `join` raises a
configuration error (`TypeError`) only when given zero effective
units — a single effective unit is returned as-is, fewer-than-2
rejection otherwise being only static, in the `PolicyList` type. -/
theorem join_spec :
    (∀ (A B : RetryPolicy) (s : RetryState) (c : Option NextFn),
      (join [.single A, .single B]).map (fun p => p s c) = .ok (A s (some (asNext B)))) ∧
    (∀ items : List PolicyItem,
      join items = join ((PolicyItem.flatten items).map .single)) ∧
    join [] = .error (.typeError "Reduce of empty array with no initial value") := by
  refine ⟨fun A B s c => rfl, fun items => ?_, rfl⟩
  simp only [join, PolicyItem.flatten_map_single]

/-! ## C10: composed chains ignore their own call-time `next` -/

/-- C10: for every policy list accepted by `join` (the `PolicyList`
type requires at least 2 effective units), the composed policy applied
to any call-time `next` argument `c` produces the same value as with
no `next` at all — the outermost `(state) => policy(state, next)` arrow
of `reduceRight` ignores its own second argument, so the behavior of
`c` (even an always-throwing one) is irrelevant and `c` is never
invoked. -/
theorem join_ignores_call_time_next (items : List PolicyItem)
    (h : 2 ≤ (PolicyItem.flatten items).length) (s : RetryState) (c : NextFn) :
    (join items).map (fun p => p s (some c)) =
      (join items).map (fun p => p s none) := by
  cases hfl : PolicyItem.flatten items with
  | nil => rw [hfl] at h; simp at h
  | cons p rest =>
    cases rest with
    | nil => rw [hfl] at h; simp at h
    | cons q rest' => simp [join, hfl, reduceRight, Except.map]

theorem join_ignores_call_time_next_witness :
    2 ≤ (PolicyItem.flatten [.single constFive, .single constFive]).length ∧
    (join [.single constFive, .single constFive]).map
        (fun p => p (stateAt 1) (some (fun _ => .error (.str "boom")))) =
      (join [.single constFive, .single constFive]).map (fun p => p (stateAt 1) none) :=
  ⟨by simp [PolicyItem.flatten],
    join_ignores_call_time_next _ (by simp [PolicyItem.flatten]) _ _⟩

/-! ## C5: `Backoff` -/

/-- C5: `Backoff` raises a configuration error at construction time
when `delay ≤ 0` or `exp ≤ 0`; otherwise the constructed policy
returns `min(max, delay * exp^(attempt-1))` — the same value whatever
value `next` returns (`next` is still evaluated when present, its
return value discarded, and a throw from it propagates); in particular
`delay = 150, exp = 2` (default `max = 30000`) yields 150, 300, 600
for attempts 1, 2, 3. -/
theorem Backoff_spec :
    (∀ d e m : ℚ, d ≤ 0 →
      Backoff (some ⟨some d, some e, some m⟩) =
        .error (.typeError "delay must be a positive number")) ∧
    (∀ d e m : ℚ, 0 < d → e ≤ 0 →
      Backoff (some ⟨some d, some e, some m⟩) =
        .error (.typeError "exp must be a positive number")) ∧
    (∀ d e m : ℚ, 0 < d → 0 < e → ∀ s : RetryState,
      (Backoff (some ⟨some d, some e, some m⟩)).map (fun p => p s none) =
        .ok (.ok (min m (d * e ^ ((s.attempt : ℤ) - 1))))) ∧
    (∀ d e m : ℚ, 0 < d → 0 < e → ∀ (s : RetryState) (n : NextFn) (v : ℚ),
      n s = .ok v →
      (Backoff (some ⟨some d, some e, some m⟩)).map (fun p => p s (some n)) =
        .ok (.ok (min m (d * e ^ ((s.attempt : ℤ) - 1))))) ∧
    (∀ d e m : ℚ, 0 < d → 0 < e → ∀ (s : RetryState) (n : NextFn) (er : Err),
      n s = .error er →
      (Backoff (some ⟨some d, some e, some m⟩)).map (fun p => p s (some n)) =
        .ok (.error er)) ∧
    ((Backoff (some { delay := some 150, exp := some 2 })).map
        (fun p => p (stateAt 1) none) = .ok (.ok 150) ∧
      (Backoff (some { delay := some 150, exp := some 2 })).map
        (fun p => p (stateAt 2) none) = .ok (.ok 300) ∧
      (Backoff (some { delay := some 150, exp := some 2 })).map
        (fun p => p (stateAt 3) none) = .ok (.ok 600)) := by
  refine ⟨fun d e m hd => ?_, fun d e m hd he => ?_,
    fun d e m hd he s => ?_, fun d e m hd he s n v hn => ?_,
    fun d e m hd he s n er hn => ?_,
    by norm_num [Backoff, stateAt, Except.map],
    by norm_num [Backoff, stateAt, Except.map],
    by norm_num [Backoff, stateAt, Except.map]⟩
  · simp [Backoff, hd]
  · simp [Backoff, not_le.mpr hd, he]
  · simp [Backoff, not_le.mpr hd, not_le.mpr he, Except.map]
  · simp [Backoff, not_le.mpr hd, not_le.mpr he, hn, Except.map]
  · simp [Backoff, not_le.mpr hd, not_le.mpr he, hn, Except.map]

theorem Backoff_spec_witness :
    ((0 : ℚ) ≤ 0 ∧
      Backoff (some ⟨some 0, some 2, some 100⟩) =
        .error (.typeError "delay must be a positive number")) ∧
    ((0 : ℚ) < 1 ∧ (0 : ℚ) ≤ 0 ∧
      Backoff (some ⟨some 1, some 0, some 100⟩) =
        .error (.typeError "exp must be a positive number")) ∧
    ((0 : ℚ) < 150 ∧ (0 : ℚ) < 2 ∧
      (Backoff (some ⟨some 150, some 2, some 30000⟩)).map
          (fun p => p (stateAt 2) none) =
        .ok (.ok (min 30000 (150 * (2 : ℚ) ^ (((stateAt 2).attempt : ℤ) - 1))))) ∧
    (ok42 (stateAt 2) = .ok 42 ∧
      (Backoff (some ⟨some 150, some 2, some 30000⟩)).map
          (fun p => p (stateAt 2) (some ok42)) =
        .ok (.ok (min 30000 (150 * (2 : ℚ) ^ (((stateAt 2).attempt : ℤ) - 1))))) ∧
    (boomNext (stateAt 2) = .error (.str "boom") ∧
      (Backoff (some ⟨some 150, some 2, some 30000⟩)).map
          (fun p => p (stateAt 2) (some boomNext)) =
        .ok (.error (.str "boom"))) :=
  ⟨⟨le_refl 0, Backoff_spec.1 0 2 100 (le_refl 0)⟩,
    ⟨by norm_num, le_refl 0, Backoff_spec.2.1 1 0 100 (by norm_num) (le_refl 0)⟩,
    ⟨by norm_num, by norm_num,
      Backoff_spec.2.2.1 150 2 30000 (by norm_num) (by norm_num) (stateAt 2)⟩,
    ⟨rfl, Backoff_spec.2.2.2.1 150 2 30000 (by norm_num) (by norm_num)
      (stateAt 2) ok42 42 rfl⟩,
    ⟨rfl, Backoff_spec.2.2.2.2.1 150 2 30000 (by norm_num) (by norm_num)
      (stateAt 2) boomNext (.str "boom") rfl⟩⟩

/-! ## C6: `Timeout` -/

/-- C6: `Timeout({after})` raises `state.error` exactly when
`state.elapsed > after - state.delay` or when `next` is absent, and
otherwise returns `next(state)` unchanged; `Timeout()` with no options
behaves as `after = 30000`. -/
theorem Timeout_spec :
    (∀ (a : ℚ) (s : RetryState),
      Timeout (some ⟨some a⟩) s none = .error s.error) ∧
    (∀ (a : ℚ) (s : RetryState) (n : NextFn), s.elapsed > a - s.delay →
      Timeout (some ⟨some a⟩) s (some n) = .error s.error) ∧
    (∀ (a : ℚ) (s : RetryState) (n : NextFn), ¬ s.elapsed > a - s.delay →
      Timeout (some ⟨some a⟩) s (some n) = n s) ∧
    (∀ (s : RetryState) (c : Option NextFn),
      Timeout none s c = Timeout (some ⟨some 30000⟩) s c) := by
  refine ⟨fun a s => rfl, fun a s n h => ?_, fun a s n h => ?_, fun s c => rfl⟩
  · simp [Timeout, h]
  · simp [Timeout, h]

theorem Timeout_spec_witness :
    Timeout (some ⟨some 10⟩) { stateAt 1 with elapsed := 20 } none =
      .error { stateAt 1 with elapsed := 20 }.error ∧
    (({ stateAt 1 with elapsed := 20 } : RetryState).elapsed > 10 -
        ({ stateAt 1 with elapsed := 20 } : RetryState).delay ∧
      Timeout (some ⟨some 10⟩) { stateAt 1 with elapsed := 20 } (some const0) =
        .error { stateAt 1 with elapsed := 20 }.error) ∧
    (¬ (stateAt 1).elapsed > 10 - (stateAt 1).delay ∧
      Timeout (some ⟨some 10⟩) (stateAt 1) (some const0) = const0 (stateAt 1)) ∧
    Timeout none (stateAt 1) (some const0) =
      Timeout (some ⟨some 30000⟩) (stateAt 1) (some const0) :=
  ⟨Timeout_spec.1 10 _,
    ⟨by norm_num [stateAt], Timeout_spec.2.1 10 _ _ (by norm_num [stateAt])⟩,
    ⟨by norm_num [stateAt], Timeout_spec.2.2.1 10 _ _ (by norm_num [stateAt])⟩,
    Timeout_spec.2.2.2 _ _⟩

/-! ## C7: the jitter family with no `next` -/

/-- C7 counterexample: contrary to "every member of the Jitter family
fails when no next policy is present", `DecorrelatedJitter` invoked
with no `next` raises nothing: with defaults and a zero random draw it
returns delay 150 (and certainly does not raise `state.error`). -/
theorem decorrelatedJitter_no_next_not_error :
    DecorrelatedJitter none 0 (stateAt 1) none = .ok 150 ∧
    Except.ok (150 : ℚ) ≠ Except.error (stateAt 1).error := by
  constructor
  · norm_num [DecorrelatedJitter, stateAt]
  · simp

/-- C7 (amended): `Jitter`, `FullJitter` and `EqualJitter` invoked on
any state with no `next` fail by raising `state.error`; but
`DecorrelatedJitter` and `PollyJitter` do not require a `next`: with
no `next` they return a computed delay and raise nothing. -/
theorem jitter_family_no_next :
    (∀ (opts : JitterOptions) (rand : ℚ) (s : RetryState),
      Jitter opts rand s none = .error s.error) ∧
    (∀ (rand : ℚ) (s : RetryState), FullJitter rand s none = .error s.error) ∧
    (∀ (rand : ℚ) (s : RetryState), EqualJitter rand s none = .error s.error) ∧
    (∀ (opts : Option DecorrelatedJitterOptions) (rand : ℚ) (s : RetryState),
      ∃ q : ℚ, DecorrelatedJitter opts rand s none = .ok q) ∧
    (∀ (opts : Option PollyJitterOptions) (curve : ℚ → ℚ) (prev rand : ℚ)
      (s : RetryState),
      ∃ (q f : ℚ), PollyJitter opts curve prev rand s none = (.ok q, f)) :=
  ⟨fun _ _ _ => rfl, fun _ _ => rfl, fun _ _ => rfl,
    fun _ _ _ => ⟨_, rfl⟩, fun _ _ _ _ _ => ⟨_, _, rfl⟩⟩

/-! ## C8: `BrandError`'s aggregate error list -/

/-- C8: at the failing input — the state of the repository's own
BrandError unit test, with N = 2 recorded failures and `error` equal
to the last one — `BrandError` raises a `RetryyyError` whose error
list is `state.errors.concat(err)` = the 2 recorded errors plus the
caught one again, i.e. length 3 = N + 1 with the last error
duplicated, not length N = 2 as the claim (and the repository's own
test, which expects `toHaveLength(2)`) states.  The cause does equal
the last error. -/
theorem brandError_error_list_length :
    BrandError brandState none =
      .error (.retryyy
        [.str "Previous error", .str "Last error", .str "Last error"]
        (.str "Last error")) ∧
    [Err.str "Previous error", .str "Last error", .str "Last error"].length ≠ 2 ∧
    brandState.errors.length = 2 :=
  ⟨rfl, by decide, rfl⟩

/-! ## C9: `FastTrack` -/

/-- C9 counterexample: contrary to "FastTrack fails when invoked with
no next policy present", `FastTrack` with no `next` raises nothing:
`next?.(state) ?? 0` makes it return delay 0 (and certainly not raise
`state.error`). -/
theorem fastTrack_no_next_not_error :
    FastTrack (stateAt 1) none = .ok 0 ∧
    Except.ok (0 : ℚ) ≠ Except.error (stateAt 1).error := by
  constructor
  · rfl
  · simp

/-- C9 (amended): `FastTrack` never fails on its own: with no `next`
it returns 0 for every state (`next?.(state) ?? 0`).  When `next` is
present and returns a delay, `FastTrack` returns exactly 0 for
`attempt == 1` and `next`'s delay unchanged for every other attempt;
a failure raised by `next` propagates unchanged. -/
theorem FastTrack_spec :
    (∀ s : RetryState, FastTrack s none = .ok 0) ∧
    (∀ (s : RetryState) (n : NextFn) (v : ℚ), n s = .ok v → s.attempt = 1 →
      FastTrack s (some n) = .ok 0) ∧
    (∀ (s : RetryState) (n : NextFn) (v : ℚ), n s = .ok v → s.attempt ≠ 1 →
      FastTrack s (some n) = .ok v) ∧
    (∀ (s : RetryState) (n : NextFn) (er : Err), n s = .error er →
      FastTrack s (some n) = .error er) := by
  refine ⟨fun s => ?_, fun s n v hn h1 => ?_, fun s n v hn h1 => ?_,
    fun s n er hn => ?_⟩
  · simp [FastTrack, Except.map]
  · simp [FastTrack, hn, h1, Except.map]
  · simp [FastTrack, hn, h1, Except.map]
  · simp [FastTrack, hn, Except.map]

theorem FastTrack_spec_witness :
    FastTrack (stateAt 3) none = .ok 0 ∧
    (ok42 (stateAt 1) = .ok 42 ∧
      (stateAt 1).attempt = 1 ∧
      FastTrack (stateAt 1) (some ok42) = .ok 0) ∧
    (ok42 (stateAt 2) = .ok 42 ∧
      (stateAt 2).attempt ≠ 1 ∧
      FastTrack (stateAt 2) (some ok42) = .ok 42) ∧
    (boomNext (stateAt 1) = .error (.str "boom") ∧
      FastTrack (stateAt 1) (some boomNext) = .error (.str "boom")) :=
  ⟨FastTrack_spec.1 _,
    ⟨rfl, rfl, FastTrack_spec.2.1 (stateAt 1) ok42 42 rfl rfl⟩,
    ⟨rfl, by decide, FastTrack_spec.2.2.1 (stateAt 2) ok42 42 rfl (by decide)⟩,
    ⟨rfl, FastTrack_spec.2.2.2 (stateAt 1) boomNext (.str "boom") rfl⟩⟩

/-! ## C1: engine driven by `Breaker` alone / with a delegate -/

/-- An operation that fails on invocation `j` with error `errs j`. -/
def alwaysFail (errs : Nat → Err) : Nat → Except Err Unit :=
  fun j => .error (errs j)

theorem Breaker_eval (m : ℚ) (s : RetryState) (c : Option NextFn) :
    Breaker (some { max := some m }) s c =
      if m ≤ (s.attempt : ℚ) then .error s.error
      else
        match c with
        | some n => n s
        | none => .error s.error := rfl

/-- C1 counterexample: with `Breaker({max: 2})` as the sole policy and
an operation failing on every attempt, the engine invokes the
operation exactly once, not 2 times: at attempt 1 the breaker has no
`next` to delegate to and fails closed, throwing the first error. -/
theorem breaker_alone_attempts_once_not_twice :
    (exec failOp (fun s => Breaker (some { max := some 2 }) s none)
        none (fun _ => 0) 5).2.1 = 1 ∧
    (exec failOp (fun s => Breaker (some { max := some 2 }) s none)
        none (fun _ => 0) 5).2.1 ≠ 2 ∧
    (exec failOp (fun s => Breaker (some { max := some 2 }) s none)
        none (fun _ => 0) 5).1 = some (.error (.str "failure")) :=
  ⟨rfl, by rw [show (exec failOp (fun s => Breaker (some { max := some 2 }) s none)
      none (fun _ => 0) 5).2.1 = 1 from rfl]; decide, rfl⟩

theorem breaker_execLoop (N : Nat) (errs : Nat → Err) (tail : RetryPolicy)
    (clock : Nat → ℚ) (htail : ∀ s, ∃ q, tail s none = Except.ok q) :
    ∀ k : Nat, 1 ≤ k → ∀ (fuel calls : Nat) (s : RetryState),
      k ≤ fuel → s.attempt + k = N →
      (execLoop (alwaysFail errs)
          (fun st => Breaker (some { max := some (N : ℚ) }) st (some (asNext tail)))
          none clock fuel s calls).1 = some (.error (errs (calls + k))) ∧
      (execLoop (alwaysFail errs)
          (fun st => Breaker (some { max := some (N : ℚ) }) st (some (asNext tail)))
          none clock fuel s calls).2.1 = calls + k := by
  intro k
  induction k with
  | zero => intro h; exact absurd h (by omega)
  | succ k ih =>
    intro _ fuel calls s hfuel hattempt
    cases fuel with
    | zero => exact absurd hfuel (by omega)
    | succ f =>
      rcases Nat.eq_zero_or_pos k with hk | hk
      · subst hk
        have hcond : (N : ℚ) ≤ (s.attempt : ℚ) + 1 := by
          have h1 : N ≤ s.attempt + 1 := by omega
          exact_mod_cast h1
        simp [execLoop, alwaysFail, Breaker_eval, if_pos hcond]
      · have hlt : s.attempt + 1 < N := by omega
        have hcond : ¬ (N : ℚ) ≤ ((s.attempt + 1 : Nat) : ℚ) := by
          have h2 : ((s.attempt + 1 : Nat) : ℚ) < N := by exact_mod_cast hlt
          exact not_le.mpr h2
        obtain ⟨q, hq⟩ := htail
          { s with
            attempt := s.attempt + 1
            elapsed := clock (s.attempt + 1) - s.start
            error := errs (calls + 1)
            errors := s.errors ++ [errs (calls + 1)] }
        have ih' := ih hk f (calls + 1)
          { s with
            attempt := s.attempt + 1
            delay := q
            elapsed := clock (s.attempt + 1) - s.start
            error := errs (calls + 1)
            errors := s.errors ++ [errs (calls + 1)] }
          (by omega) (by show s.attempt + 1 + k = N; omega)
        have hcalls : calls + 1 + k = calls + (k + 1) := by omega
        rw [hcalls] at ih'
        simp only [execLoop, alwaysFail, Breaker_eval, if_neg hcond, asNext, wait,
          hq]
        exact ih'

/-- C1 (amended): `Breaker({max: N})` as the sole policy fails closed
at the very first failure (see the counterexample), so "exactly N
attempts" holds not for `Breaker` alone but for `Breaker` composed
with a delegate: for every N ≥ 1, if the engine is driven by
`join(Breaker({max: N}), D)` where `D` always returns a delay when
called at the end of the chain, a permanently-failing operation is
invoked exactly N times and the terminal failure is the Nth operation
error (for N = 1 the sole-policy behavior also matches the claim:
exactly one attempt, terminal error = the operation error). -/
theorem breaker_with_delegate_attempts_exactly_max (N : Nat) (errs : Nat → Err)
    (tail : RetryPolicy) (clock : Nat → ℚ) (fuel : Nat) (p : RetryPolicy)
    (hN : 1 ≤ N) (hfuel : N ≤ fuel)
    (htail : ∀ s, ∃ q, tail s none = Except.ok q)
    (hjoin : join [.single (Breaker (some { max := some (N : ℚ) })), .single tail]
      = .ok p) :
    (exec (alwaysFail errs) (asNext p) none clock fuel).1 =
      some (.error (errs N)) ∧
    (exec (alwaysFail errs) (asNext p) none clock fuel).2.1 = N := by
  have hp : reduceRight (Breaker (some { max := some (N : ℚ) })) [tail] = p := by
    injection hjoin
  subst hp
  have h := breaker_execLoop N errs tail clock htail N hN fuel 0
    (initState (clock 0)) hfuel (by simp [initState])
  simpa [exec, reduceRight, asNext] using h

theorem breaker_with_delegate_attempts_exactly_max_witness :
    (exec (alwaysFail fun _ => .str "failure")
        (asNext (reduceRight (Breaker (some { max := some ((2 : Nat) : ℚ) }))
          [constFive])) none (fun _ => 0) 2).1 = some (.error (.str "failure")) ∧
    (exec (alwaysFail fun _ => .str "failure")
        (asNext (reduceRight (Breaker (some { max := some ((2 : Nat) : ℚ) }))
          [constFive])) none (fun _ => 0) 2).2.1 = 2 :=
  breaker_with_delegate_attempts_exactly_max 2 (fun _ => .str "failure")
    constFive (fun _ => 0) 2 _ (by omega) (by omega) (fun _ => ⟨5, rfl⟩) rfl

/-! ## C2: a signal already aborted before the wrapped call -/

/-- The state the engine presents to the policy after the very first
failure with error `e`: attempt 1, previous delay 0, one recorded
error, `elapsed = Date.now() - start`. -/
def firstFailState (clock : Nat → ℚ) (e : Err) : RetryState where
  attempt := 1
  delay := 0
  elapsed := clock 1 - clock 0
  error := e
  errors := [e]
  start := clock 0

/-- C2 counterexample: with a signal already aborted (reason
"Aborted") before the wrapped call, an always-failing operation and a
policy returning delay 0, the engine invokes the operation exactly
once — not zero times — and only then fails with the cancellation
reason: `exec` has no eager abort check before the first attempt (the
check sits inside `wait`, which runs only after a failure has been
processed).  This matches the repository's own test, which expects
`fn` to have been called exactly 1 time in this scenario. -/
theorem preaborted_signal_op_invoked_once :
    (exec failOp const0 (some ⟨true, .str "Aborted"⟩) (fun _ => 0) 3).2.1 = 1 ∧
    (exec failOp const0 (some ⟨true, .str "Aborted"⟩) (fun _ => 0) 3).2.1 ≠ 0 ∧
    (exec failOp const0 (some ⟨true, .str "Aborted"⟩) (fun _ => 0) 3).1 =
      some (.error (.str "Aborted")) :=
  ⟨rfl, by rw [show (exec failOp const0 (some ⟨true, .str "Aborted"⟩)
      (fun _ => 0) 3).2.1 = 1 from rfl]; decide, rfl⟩

/-- C2 (amended): a cancellation signal already aborted before the
wrapped call does not prevent the first attempt: the operation is
invoked exactly once; if that attempt fails (and the policy returns a
delay for it), the engine then fails with the cancellation reason
when the first wait is rejected. -/
theorem preaborted_signal_cancellation_after_first_attempt {α : Type}
    (op : Nat → Except Err α) (policy : NextFn) (reason : Err)
    (clock : Nat → ℚ) (fuel : Nat) (e : Err) (d : ℚ)
    (hfuel : 1 ≤ fuel)
    (hop : op 1 = .error e)
    (hpol : policy (firstFailState clock e) = .ok d) :
    (exec op policy (some ⟨true, reason⟩) clock fuel).1 =
      some (.error reason) ∧
    (exec op policy (some ⟨true, reason⟩) clock fuel).2.1 = 1 := by
  cases fuel with
  | zero => exact absurd hfuel (by omega)
  | succ f =>
    simp only [firstFailState] at hpol
    simp [exec, execLoop, initState, hop, hpol, wait]

theorem preaborted_signal_cancellation_after_first_attempt_witness :
    (exec failOp const0 (some ⟨true, .str "Aborted"⟩) (fun _ => 0) 1).1 =
      some (.error (.str "Aborted")) ∧
    (exec failOp const0 (some ⟨true, .str "Aborted"⟩) (fun _ => 0) 1).2.1 = 1 :=
  preaborted_signal_cancellation_after_first_attempt failOp const0
    (.str "Aborted") (fun _ => 0) 1 (.str "failure") 0 (by omega) rfl rfl

/-! ## C3: the `RetryState` invariants -/

/-- C3 counterexample: the engine commits whatever delay the policy
returns, so `delay` is not monotonically non-decreasing for every
policy: with a policy returning 100 at attempt 1 and 5 afterwards,
the successive committed delays are 100, 5, 5. -/
theorem delay_not_monotone_for_some_policy :
    ((exec failOp zigzag none (fun _ => 0) 3).2.2.map (fun s => s.delay)) =
      [100, 5, 5] ∧
    ¬ (100 : ℚ) ≤ 5 :=
  ⟨rfl, by norm_num⟩

theorem execLoop_trace_inv {α : Type} (op : Nat → Except Err α) (policy : NextFn)
    (signal : Option Signal) (clock : Nat → ℚ) :
    ∀ (fuel calls : Nat) (s : RetryState),
      s.start = clock 0 → s.elapsed = clock s.attempt - clock 0 →
      s.errors.length = s.attempt →
      List.Forall (fun x : RetryState => x.errors.length = x.attempt ∧
          x.start = clock 0 ∧ x.elapsed = clock x.attempt - clock 0)
        (execLoop op policy signal clock fuel s calls).2.2 ∧
      List.Chain' (fun a b : RetryState => a.attempt + 1 = b.attempt)
        (s :: (execLoop op policy signal clock fuel s calls).2.2) := by
  intro fuel
  induction fuel with
  | zero => intro calls s h1 h2 h3; simp [execLoop, List.Forall]
  | succ f ih =>
    intro calls s h1 h2 h3
    simp only [execLoop]
    cases hop : op (calls + 1) with
    | ok v => simp [List.Forall]
    | error e =>
      cases hpol : policy
        { s with
          attempt := s.attempt + 1
          elapsed := clock (s.attempt + 1) - s.start
          error := e
          errors := s.errors ++ [e] } with
      | error pe =>
        simp only [hpol]
        refine ⟨?_, ?_⟩
        · simp [List.Forall, h1, h3]
        · simp [List.chain'_cons, List.chain'_singleton]
      | ok d =>
        simp only [hpol]
        cases hw : wait signal with
        | error ce =>
          simp only [hw]
          refine ⟨?_, ?_⟩
          · simp [List.Forall, h1, h3]
          · simp [List.chain'_cons, List.chain'_singleton]
        | ok u =>
          simp only [hw]
          have hrec := ih (calls + 1)
            { s with
              attempt := s.attempt + 1
              delay := d
              elapsed := clock (s.attempt + 1) - s.start
              error := e
              errors := s.errors ++ [e] }
            h1 (by simp [h1]) (by simp [h3])
          refine ⟨?_, ?_⟩
          · rw [List.forall_cons]
            exact ⟨⟨by simp [h3], h1, by simp [h1]⟩, hrec.1⟩
          · rw [List.chain'_cons]
            exact ⟨rfl, hrec.2⟩

theorem chain_elapsed_of_forall (clock : Nat → ℚ) (hclock : Monotone clock) :
    ∀ l : List RetryState,
      List.Forall (fun x : RetryState => x.errors.length = x.attempt ∧
        x.start = clock 0 ∧ x.elapsed = clock x.attempt - clock 0) l →
      List.Chain' (fun a b : RetryState => a.attempt + 1 = b.attempt) l →
      List.Chain' (fun a b : RetryState => a.elapsed ≤ b.elapsed) l := by
  intro l
  induction l with
  | nil => intro _ _; simp
  | cons x t iht =>
    cases t with
    | nil => intro _ _; simp
    | cons y t' =>
      intro hf hc
      rw [List.chain'_cons] at hc ⊢
      obtain ⟨hx, hf'⟩ := (List.forall_cons _ _ _).mp hf
      have hy := ((List.forall_cons _ _ _).mp hf').1
      refine ⟨?_, iht hf' hc.2⟩
      rw [hx.2.2, hy.2.2]
      have hle : x.attempt ≤ y.attempt := by omega
      exact sub_le_sub_right (hclock hle) _

/-- C3 (amended): within one operation's lifetime, every snapshot of
the `RetryState` satisfies `errors.length == attempt` (so the claim's
first part holds), and `attempt` and — given a monotone clock —
`elapsed` are monotonically non-decreasing across successive updates;
but `delay` is whatever the policy returns at each failure and is not
monotone for every policy (see the counterexample), only for policies
that happen to return non-decreasing delays. -/
theorem retryState_invariants {α : Type} (op : Nat → Except Err α)
    (policy : NextFn) (signal : Option Signal) (clock : Nat → ℚ) (fuel : Nat)
    (hclock : Monotone clock) :
    List.Forall (fun x : RetryState => x.errors.length = x.attempt)
      (exec op policy signal clock fuel).2.2 ∧
    List.Chain' (fun a b : RetryState => a.attempt ≤ b.attempt)
      (exec op policy signal clock fuel).2.2 ∧
    List.Chain' (fun a b : RetryState => a.elapsed ≤ b.elapsed)
      (exec op policy signal clock fuel).2.2 := by
  have h := execLoop_trace_inv op policy signal clock fuel 0 (initState (clock 0))
    rfl (by simp [initState]) rfl
  refine ⟨?_, ?_, ?_⟩
  · exact h.1.imp (fun x hx => hx.1)
  · exact List.Chain'.imp (fun a b hab => by omega) h.2.tail
  · exact chain_elapsed_of_forall clock hclock _ h.1 h.2.tail

theorem retryState_invariants_witness :
    List.Forall (fun x : RetryState => x.errors.length = x.attempt)
      (exec failOp zigzag none (fun _ => 0) 2).2.2 ∧
    List.Chain' (fun a b : RetryState => a.attempt ≤ b.attempt)
      (exec failOp zigzag none (fun _ => 0) 2).2.2 ∧
    List.Chain' (fun a b : RetryState => a.elapsed ≤ b.elapsed)
      (exec failOp zigzag none (fun _ => 0) 2).2.2 :=
  retryState_invariants failOp zigzag none (fun _ => 0) 2 monotone_const
